/-
Verification development for the symbol-substitute data generator.

Shallow embedding of the task-instance generation and frame-animation
engine (src/src/generator.py, src/src/config.py, src/src/prompts.py,
src/core/base_generator.py), together with theorems settling the
specification claims about it.

Modelling conventions:
- The process-wide random source (Python `random`, seeded once in
  BaseGenerator) is modelled as an abstract stream of natural-number
  draws plus a cursor; each primitive (`randint`, `sample`, `choice`)
  consumes draws in call order, mirroring the source call order.
- Python machine integers are unbounded, so `Int`/`Nat` are used
  directly.  Python floor division `//` on possibly-negative values is
  `Int.fdiv`; `int()` truncation of a rational is `pyInt`.
- Fallible Python operations (raising ValueError / IndexError /
  ZeroDivisionError) return `Except String`.
- Python `set(...)` iteration order over strings depends on per-process
  hash randomization; it is modelled as an abstract enumeration function
  `setOrder` passed to `generate_task_pair`.  A valid enumeration is any
  permutation of the distinct elements of its input list.
- A rendered image is modelled as the ordered list of glyph draw
  operations applied to it (symbol, text position, RGB color, 8-bit
  alpha); font metrics (`draw.textbbox`) are an abstract `measure`
  function, shared by all renderers of an instance because they load the
  same font.
-/
import Mathlib

/-- RGB color triple, as in the Python tuples of SYMBOL_COLORS. -/
abbrev RGB := Nat × Nat × Nat

/-- Abstract model of the seeded global random source: a stream of raw
natural-number draws and a cursor.  A fixed seed fixes the stream. -/
structure Rng where
  stream : Nat → Nat
  idx : Nat

/-- Consume one raw draw from the random source. -/
def Rng.next (g : Rng) : Nat × Rng :=
  (g.stream g.idx, { g with idx := g.idx + 1 })

/-- Python random.randint(lo, hi): uniform integer in [lo, hi];
raises ValueError when the range is empty (hi < lo). -/
def randintE (lo hi : Int) (g : Rng) : Except String (Int × Rng) :=
  if hi < lo then .error "empty range for randrange"
  else
    let (d, g') := g.next
    .ok (lo + (d : Int) % (hi - lo + 1), g')

/-- Selection loop of Python random.sample: repeatedly pick a remaining
element by index and remove it.  Always called with k ≤ remaining.length. -/
def sampleLoop (remaining : List String) (k : Nat) (g : Rng) : List String × Rng :=
  match k with
  | 0 => ([], g)
  | Nat.succ k' =>
    let (d, g') := g.next
    let i := d % remaining.length
    let x := remaining.getD i ""
    let (rest, g'') := sampleLoop (remaining.eraseIdx i) k' g'
    (x :: rest, g'')

/-- Python random.sample(pop, k): k distinct positions drawn without
replacement; raises ValueError if k is negative or exceeds the
population size. -/
def sampleE (pop : List String) (k : Int) (g : Rng) : Except String (List String × Rng) :=
  if k < 0 ∨ (pop.length : Int) < k then
    .error "Sample larger than population or is negative"
  else .ok (sampleLoop pop k.toNat g)

/-- Python random.choice(l): uniform element of l; raises IndexError on
an empty sequence. -/
def choiceE (l : List String) (g : Rng) : Except String (String × Rng) :=
  if l.length = 0 then .error "Cannot choose from an empty sequence"
  else
    let (d, g') := g.next
    .ok (l.getD (d % l.length) "", g')

/-- Python list indexing l[i]; raises IndexError out of range.  (Negative
indices never reach this model: the only index used is drawn from
randint(0, len-1).) -/
def indexE (l : List String) (i : Int) : Except String String :=
  if 0 ≤ i ∧ i < (l.length : Int) then .ok (l.getD i.toNat "")
  else .error "list index out of range"

/-- generator.py SYMBOL_SETS["shapes"]. -/
def shapesSymbols : List String :=
  ["●", "▲", "■", "★", "◆", "♥", "◯", "△", "□", "☆", "◇", "♦", "▼", "▶", "◀"]

/-- generator.py SYMBOL_SETS["letters"] (list("ABC..Z")). -/
def lettersSymbols : List String :=
  ["A", "B", "C", "D", "E", "F", "G", "H", "I", "J", "K", "L", "M",
   "N", "O", "P", "Q", "R", "S", "T", "U", "V", "W", "X", "Y", "Z"]

/-- generator.py SYMBOL_SETS["numbers"] (list("0123456789")). -/
def numbersSymbols : List String :=
  ["0", "1", "2", "3", "4", "5", "6", "7", "8", "9"]

/-- generator.py SYMBOL_SETS["mixed"]. -/
def mixedSymbols : List String :=
  ["●", "▲", "■", "★", "A", "B", "C", "1", "2", "3", "X", "Y", "Z"]

/-- generator.py SYMBOL_SETS dictionary. -/
def SYMBOL_SETS : List (String × List String) :=
  [("shapes", shapesSymbols), ("letters", lettersSymbols),
   ("numbers", numbersSymbols), ("mixed", mixedSymbols)]

/-- SYMBOL_SETS.get(name, SYMBOL_SETS["shapes"]) from
SymbolSubstituteGenerator.__init__ (generator.py line 46). -/
def symbol_sets_get (name : String) : List String :=
  match SYMBOL_SETS.find? (fun p => p.1 == name) with
  | some p => p.2
  | none => shapesSymbols

/-- generator.py SYMBOL_COLORS palette. -/
def SYMBOL_COLORS : List RGB :=
  [(220, 60, 60), (60, 60, 220), (60, 180, 60), (220, 160, 60), (160, 60, 220),
   (60, 180, 180), (220, 60, 160), (100, 150, 60), (220, 120, 60), (80, 80, 200)]

/-- _create_color_map (generator.py lines 99-104): enumerate the distinct
symbols (in the set-iteration order supplied by the caller) and assign
palette colors cyclically by index. -/
def create_color_map (orderedSymbols : List String) : List (String × RGB) :=
  orderedSymbols.enum.map (fun p => (p.2, SYMBOL_COLORS.getD (p.1 % SYMBOL_COLORS.length) (0, 0, 0)))

/-- Python dict lookup on an association list: the last binding for a key
wins (dict insertion overwrites). -/
def dictGet (m : List (String × RGB)) (s : String) : RGB :=
  match m.reverse.find? (fun p => p.1 == s) with
  | some p => p.2
  | none => (0, 0, 0)

/-- prompts.py PROMPT_TEMPLATES. -/
def PROMPT_TEMPLATES : List String :=
  ["Substitute symbol {old_symbol} at position {position} with symbol {new_symbol}. The video shows the old symbol fading out while the new symbol simultaneously fades in at the same position.",
   "Replace symbol {old_symbol} at position {position} with symbol {new_symbol}. Animate the substitution with a cross-fade effect, where the old symbol gradually disappears as the new symbol appears.",
   "Substitute the symbol {old_symbol} at position {position} with {new_symbol}. The substitution is shown by cross-fading: the original symbol fades out while the replacement symbol fades in at the same location.",
   "Replace the symbol {old_symbol} at position {position} with symbol {new_symbol}. Show a smooth transition where both symbols are visible briefly during the cross-fade, with the old one fading out and the new one fading in."]

/-- Fuel-indexed single-pattern textual replacement on character lists
(kernel-friendly model of string substitution; the fuel is the input
length, which the scan never exhausts). -/
def replaceFuel (pat rep : List Char) : Nat → List Char → List Char
  | 0, s => s
  | _ + 1, [] => []
  | fuel + 1, c :: rest =>
    if pat ≠ [] ∧ (c :: rest).take pat.length = pat then
      rep ++ replaceFuel pat rep fuel ((c :: rest).drop pat.length)
    else c :: replaceFuel pat rep fuel rest

/-- Replace every occurrence of pat in s by rep (model of Python
str.replace / the named-field substitution done by str.format). -/
def pyReplace (s pat rep : String) : String :=
  String.mk (replaceFuel pat.data rep.data s.data.length s.data)

/-- get_prompt (prompts.py lines 34-47), after the template has been
chosen: template.format(old_symbol=.., new_symbol=.., position=..). -/
def formatPrompt (template oldSymbol newSymbol : String) (position : Nat) : String :=
  pyReplace (pyReplace (pyReplace template "{old_symbol}" oldSymbol)
      "{new_symbol}" newSymbol)
    "{position}" (toString position)

/-- The fields of the TaskPair record assembled by generate_task_pair,
together with the intermediate sampling data the claims refer to.
(first_image / final_image are determined by sequence, finalSequence and
colorMap through render_sequence below.) -/
structure TaskPairR where
  sequence : List String
  substitutePosition : Nat
  oldSymbol : String
  newSymbol : String
  finalSequence : List String
  colorMap : List (String × RGB)
  prompt : String
  groundTruthVideo : Option String
deriving DecidableEq, Repr

/-- generate_task_pair (generator.py lines 53-97), together with the
video-generator availability logic of __init__ (lines 41-43).
`generateVideos` is config.generate_videos, `videoAvailable` is
VideoGenerator.is_available(); `setOrder` is the abstract set-iteration
order (see header).  The video artifact path is abstracted to a fixed
string: only its presence matters to the claims. -/
def generate_task_pair (symbols : List String) (minLen maxLen : Int)
    (generateVideos videoAvailable : Bool)
    (setOrder : List String → List String) (g : Rng) : Except String TaskPairR := do
  let (seqLength, g) ← randintE minLen maxLen g
  let (sequence, g) ← sampleE symbols seqLength g
  let (substitutePosition, g) ← randintE 0 ((sequence.length : Int) - 1) g
  let oldSymbol ← indexE sequence substitutePosition
  let availableSymbols := symbols.filter (fun s => !(sequence.contains s))
  let (newSymbol, g) ← choiceE availableSymbols g
  let pos := substitutePosition.toNat
  let finalSequence := sequence.take pos ++ [newSymbol] ++ sequence.drop (pos + 1)
  let allSymbols := sequence ++ [newSymbol]
  let colorMap := create_color_map (setOrder allSymbols)
  let videoGenerator := generateVideos && videoAvailable
  let groundTruthVideo := if generateVideos && videoGenerator then some "ground_truth.mp4" else none
  let (template, _) ← choiceE PROMPT_TEMPLATES g
  let prompt := formatPrompt template oldSymbol newSymbol (pos + 1)
  pure { sequence := sequence, substitutePosition := pos, oldSymbol := oldSymbol,
         newSymbol := newSymbol, finalSequence := finalSequence, colorMap := colorMap,
         prompt := prompt, groundTruthVideo := groundTruthVideo }

/-- TaskConfig field validation (config.py lines 57-81): the pydantic
bounds ge=4/le=9 on min_sequence_length and ge=5/le=12 on
max_sequence_length.  This is the only validation performed before
sampling; there is no cross-field or catalog-size check. -/
def TaskConfigValid (minLen maxLen : Int) : Prop :=
  (4 ≤ minLen ∧ minLen ≤ 9) ∧ (5 ≤ maxLen ∧ maxLen ≤ 12)

instance (minLen maxLen : Int) : Decidable (TaskConfigValid minLen maxLen) := by
  unfold TaskConfigValid
  infer_instance

/-! ## Rendering model

A rendered image is the ordered list of glyph draw operations applied to
it.  Identical operation lists give pixel-identical rasters; the layout
arithmetic below is taken verbatim from _render_sequence /
_render_crossfade_frame. -/

/-- config.image_size and config.symbol_size, the only config fields the
renderers consume. -/
structure RenderConfig where
  width : Int
  height : Int
  symbolSize : Int
deriving DecidableEq, Repr

/-- One text-draw operation: glyph, top-left text position after
centering, fill color, 8-bit alpha (255 = opaque draw.text on RGB). -/
structure Glyph where
  symbol : String
  x : Int
  y : Int
  color : RGB
  alpha : Int
deriving DecidableEq, Repr

/-- Python int() truncation (toward zero) of a rational. -/
def pyInt (q : ℚ) : Int := q.num / (q.den : Int)

/-- Glyph centering shared by _draw_symbol (generator.py lines 133-146)
and the inline bbox arithmetic of _render_crossfade_frame (lines
243-264): text_x = x - text_width // 2, text_y = y - text_height // 2,
with (text_width, text_height) the bbox extents of the glyph under the
loaded font, abstracted as `measure`. -/
def centeredGlyph (measure : String → Nat × Nat) (symbol : String) (x y : Int)
    (color : RGB) (alpha : Int) : Glyph :=
  let w := (measure symbol).1
  let h := (measure symbol).2
  { symbol := symbol, x := x - (w / 2 : Nat), y := y - (h / 2 : Nat),
    color := color, alpha := alpha }

/-- Horizontal start offset: spacing = symbol_size + 20,
total_width = len * spacing - 20, start_x = (width - total_width) // 2
(Python floor division). -/
def layoutStartX (cfg : RenderConfig) (len : Nat) : Int :=
  Int.fdiv (cfg.width - ((len : Int) * (cfg.symbolSize + 20) - 20)) 2

/-- x coordinate of cell i: start_x + i * spacing. -/
def symbolX (cfg : RenderConfig) (len i : Nat) : Int :=
  layoutStartX cfg len + (i : Int) * (cfg.symbolSize + 20)

/-- center_y = height // 2. -/
def centerY (cfg : RenderConfig) : Int := Int.fdiv cfg.height 2

/-- _render_sequence (generator.py lines 106-131): blank canvas for the
empty sequence, otherwise one opaque centered glyph per symbol in its
assigned color. -/
def render_sequence (cfg : RenderConfig) (measure : String → Nat × Nat)
    (sequence : List String) (colorMap : List (String × RGB)) : List Glyph :=
  if sequence.isEmpty then []
  else
    sequence.enum.map (fun p =>
      centeredGlyph measure p.2 (symbolX cfg sequence.length p.1) (centerY cfg)
        (dictGet colorMap p.2) 255)

/-- Loop state of _render_crossfade_frame: `orig` is the contents of the
Image object created at line 219 (the object the ImageDraw handle of
line 220 is bound to for the whole loop); `img` is the contents of the
object currently bound to the variable img; `aliased` records whether
they are still the same object.  The rebinding at lines 267-269 breaks
the alias. -/
structure CfState where
  orig : List Glyph
  img : List Glyph
  aliased : Bool

/-- One iteration of the draw loop of _render_crossfade_frame (generator.py
lines 232-272).  At the substitution index the old and new glyphs are
drawn on a fresh overlay with alphas int(255*(1-progress)) and
int(255*progress) and alpha-composited over the current pixels of the
original image, producing a new object bound to img; at any other index
the symbol is drawn through the ImageDraw handle, which mutates the
original object (visible in img only while still aliased). -/
def crossfadeStep (cfg : RenderConfig) (measure : String → Nat × Nat)
    (newSymbol : String) (substitutePos : Nat) (colorMap : List (String × RGB))
    (progress : ℚ) (len : Nat) (st : CfState) (p : Nat × String) : CfState :=
  let i := p.1
  let symbol := p.2
  let x := symbolX cfg len i
  if i = substitutePos then
    let oldAlpha := pyInt (255 * (1 - progress))
    let newAlpha := pyInt (255 * progress)
    let oldGlyph := centeredGlyph measure symbol x (centerY cfg) (dictGet colorMap symbol) oldAlpha
    let newGlyph := centeredGlyph measure newSymbol x (centerY cfg) (dictGet colorMap newSymbol) newAlpha
    { orig := st.orig, img := st.orig ++ [oldGlyph, newGlyph], aliased := false }
  else
    let glyph := centeredGlyph measure symbol x (centerY cfg) (dictGet colorMap symbol) 255
    let orig' := st.orig ++ [glyph]
    { orig := orig', img := if st.aliased then orig' else st.img, aliased := st.aliased }

/-- _render_crossfade_frame (generator.py lines 210-274): fold the draw
loop over the enumerated sequence and return the contents of the object
bound to img at the end. -/
def render_crossfade_frame (cfg : RenderConfig) (measure : String → Nat × Nat)
    (sequence : List String) (newSymbol : String) (substitutePos : Nat)
    (colorMap : List (String × RGB)) (progress : ℚ) : List Glyph :=
  (sequence.enum.foldl
    (crossfadeStep cfg measure newSymbol substitutePos colorMap progress sequence.length)
    { orig := [], img := [], aliased := true }).img

/-- Division with the Python ZeroDivisionError made explicit. -/
def divE (a b : ℚ) : Except String ℚ :=
  if b = 0 then .error "division by zero" else .ok (a / b)

/-- _create_animation_frames (generator.py lines 188-208): hold_frames
copies of the before scene, the cross-fade frames at progress (i+1)/T
for i = 0..T-1, then hold_frames copies of the after scene.  The
division is performed inside the loop, exactly as in the source, so it
is only evaluated for T ≥ 1. -/
def create_animation_framesE (cfg : RenderConfig) (measure : String → Nat × Nat)
    (initialSeq finalSeq : List String) (newSymbol : String) (substitutePos : Nat)
    (colorMap : List (String × RGB)) (holdFrames crossfadeFrames : Nat) :
    Except String (List (List Glyph)) := do
  let before := render_sequence cfg measure initialSeq colorMap
  let cross ← (List.range crossfadeFrames).mapM (fun (i : Nat) => do
    let progress ← divE ((i : ℚ) + 1) (crossfadeFrames : ℚ)
    pure (render_crossfade_frame cfg measure initialSeq newSymbol substitutePos colorMap progress))
  let after := render_sequence cfg measure finalSeq colorMap
  pure (List.replicate holdFrames before ++ cross ++ List.replicate holdFrames after)

/-- The frame list computed inside _generate_video (generator.py lines
182-184): _create_animation_frames is called without hold_frames /
crossfade_frames, so the defaults 5 and 10 apply. -/
def generate_video_frames (cfg : RenderConfig) (measure : String → Nat × Nat)
    (initialSeq finalSeq : List String) (newSymbol : String) (substitutePos : Nat)
    (colorMap : List (String × RGB)) : Except String (List (List Glyph)) :=
  create_animation_framesE cfg measure initialSeq finalSeq newSymbol substitutePos colorMap 5 10

/-- All fields of a generated task pair except the color assignment
(the colors feed only the rendered images). -/
def nonColorPart (r : TaskPairR) :
    List String × Nat × String × String × List String × String × Option String :=
  (r.sequence, r.substitutePosition, r.oldSymbol, r.newSymbol, r.finalSequence,
   r.prompt, r.groundTruthVideo)

/-! ## Concrete values used by witnesses and counterexamples -/

/-- Concrete random stream for witness runs: every raw draw is 0 (a
legitimate sequence of draws from the seeded source). -/
def rng0 : Rng := { stream := fun _ => 0, idx := 0 }

/-- A concrete set-enumeration order: first-occurrence order over the
distinct elements.  A possible Python set iteration order. -/
def ordA : List String → List String := fun l => l.dedup

/-- Another concrete set-enumeration order: reversed first-occurrence
order.  Also enumerates exactly the distinct elements of the input, so
it is an equally possible Python set iteration order (under a different
per-process string-hash seed). -/
def ordB : List String → List String := fun l => l.dedup.reverse

/-- Placeholder record (never actually selected in the witnesses). -/
def defaultTaskPair : TaskPairR :=
  { sequence := [], substitutePosition := 0, oldSymbol := "", newSymbol := "",
    finalSequence := [], colorMap := [], prompt := "", groundTruthVideo := none }

/-- The task pair produced by the witness run on the shapes catalog with
the default length range 5..9, videos disabled. -/
def demoPair : TaskPairR :=
  (generate_task_pair shapesSymbols 5 9 false false ordA rng0).toOption.getD defaultTaskPair

/-- Render configuration with the TaskConfig defaults: 800 x 200 canvas,
symbol size 60. -/
def cfgW : RenderConfig := { width := 800, height := 200, symbolSize := 60 }

/-- A concrete font-metric function for witnesses: every glyph measures
30 x 30. -/
def msrW : String → Nat × Nat := fun _ => (30, 30)

/-- Concrete color map for the rendering witnesses. -/
def cmW : List (String × RGB) := create_color_map ["●", "▲", "■"]

/-! ## Helper lemmas about the sampling primitives -/

theorem randintE_ok_bounds {lo hi a : Int} {g g' : Rng}
    (h : randintE lo hi g = .ok (a, g')) : lo ≤ a ∧ a ≤ hi := by
  unfold randintE at h
  split at h
  · simp at h
  · rename_i hlt
    push_neg at hlt
    simp only [Rng.next, Except.ok.injEq, Prod.mk.injEq] at h
    obtain ⟨ha, -⟩ := h
    subst ha
    have hm : (0 : Int) < hi - lo + 1 := by omega
    have h1 : 0 ≤ ((g.stream g.idx : Int)) % (hi - lo + 1) :=
      Int.emod_nonneg _ (by omega)
    have h2 : ((g.stream g.idx : Int)) % (hi - lo + 1) < hi - lo + 1 :=
      Int.emod_lt_of_pos _ hm
    omega

theorem randintE_ok_of_le (lo hi : Int) (g : Rng) (hle : lo ≤ hi) :
    ∃ a g', randintE lo hi g = .ok (a, g') := by
  unfold randintE
  rw [if_neg (by omega)]
  exact ⟨_, _, rfl⟩

theorem choiceE_ok_mem {l : List String} {g g' : Rng} {a : String}
    (h : choiceE l g = .ok (a, g')) : a ∈ l := by
  unfold choiceE at h
  split at h
  · simp at h
  · rename_i hne
    simp only [Rng.next, Except.ok.injEq, Prod.mk.injEq] at h
    obtain ⟨ha, -⟩ := h
    subst ha
    have hlen : 0 < l.length := Nat.pos_of_ne_zero hne
    have hlt : (g.stream g.idx) % l.length < l.length := Nat.mod_lt _ hlen
    rw [List.getD_eq_getElem _ _ hlt]
    exact List.getElem_mem hlt

theorem choiceE_ok_of_ne_nil (l : List String) (g : Rng) (hne : l ≠ []) :
    ∃ a g', choiceE l g = .ok (a, g') := by
  unfold choiceE
  rw [if_neg (by have := List.length_pos.mpr hne; omega)]
  exact ⟨_, _, rfl⟩

theorem indexE_ok {l : List String} {i : Int} {a : String}
    (h : indexE l i = .ok a) :
    0 ≤ i ∧ i.toNat < l.length ∧ a = l.getD i.toNat "" := by
  unfold indexE at h
  split at h
  · rename_i hin
    simp only [Except.ok.injEq] at h
    exact ⟨hin.1, by omega, h.symm⟩
  · simp at h

theorem sampleLoop_length (k : Nat) :
    ∀ (remaining : List String) (g : Rng), (sampleLoop remaining k g).1.length = k := by
  induction k with
  | zero => intro remaining g; rfl
  | succ k ih =>
    intro remaining g
    simp only [sampleLoop]
    simp [ih]

theorem sampleLoop_subset (k : Nat) :
    ∀ (remaining : List String) (g : Rng), k ≤ remaining.length →
      ∀ x ∈ (sampleLoop remaining k g).1, x ∈ remaining := by
  induction k with
  | zero => intro remaining g _ x hx; simp [sampleLoop] at hx
  | succ k ih =>
    intro remaining g hk x hx
    simp only [sampleLoop, List.mem_cons] at hx
    have hpos : 0 < remaining.length := by omega
    have hidx : (g.next.1) % remaining.length < remaining.length := Nat.mod_lt _ hpos
    rcases hx with hx | hx
    · subst hx
      rw [List.getD_eq_getElem _ _ hidx]
      exact List.getElem_mem hidx
    · have hlen : k ≤ (remaining.eraseIdx ((g.next.1) % remaining.length)).length := by
        rw [List.length_eraseIdx_of_lt hidx]; omega
      exact List.eraseIdx_subset _ _ (ih _ _ hlen x hx)

theorem sampleE_ok {pop : List String} {k : Int} {g g' : Rng} {s : List String}
    (h : sampleE pop k g = .ok (s, g')) :
    s.length = k.toNat ∧ ∀ x ∈ s, x ∈ pop := by
  unfold sampleE at h
  split at h
  · simp at h
  · rename_i hcond
    push_neg at hcond
    simp only [Except.ok.injEq] at h
    have hs : s = (sampleLoop pop k.toNat g).1 := by rw [h]
    subst hs
    refine ⟨sampleLoop_length _ _ _, sampleLoop_subset _ _ _ ?_⟩
    omega

theorem sampleE_ok_of_le (pop : List String) (k : Int) (g : Rng)
    (h0 : 0 ≤ k) (hk : k ≤ (pop.length : Int)) :
    ∃ s g', sampleE pop k g = .ok (s, g') := by
  unfold sampleE
  rw [if_neg (by omega)]
  exact ⟨_, _, rfl⟩

/-! ## Helper lemmas: animation frame list and final-sequence indexing -/

theorem mapM_ok_of_forall {α β : Type} (l : List α) (f : α → Except String β) (fn : α → β)
    (h : ∀ a ∈ l, f a = .ok (fn a)) : l.mapM f = .ok (l.map fn) := by
  induction l with
  | nil => rfl
  | cons x xs ih =>
    rw [List.mapM_cons, h x (List.mem_cons_self x xs),
      ih (fun a ha => h a (List.mem_cons_of_mem x ha)), List.map_cons]
    rfl

/-- Closed form of _create_animation_frames for any hold / transition
frame counts: it never fails (the progress division is only executed for
loop indices i < T, forcing T ≥ 1 there), and it produces the
hold, cross-fade, hold concatenation. -/
theorem create_animation_framesE_eq (cfg : RenderConfig) (measure : String → Nat × Nat)
    (initialSeq finalSeq : List String) (newSymbol : String) (substitutePos : Nat)
    (colorMap : List (String × RGB)) (H T : Nat) :
    create_animation_framesE cfg measure initialSeq finalSeq newSymbol substitutePos colorMap H T =
      .ok (List.replicate H (render_sequence cfg measure initialSeq colorMap) ++
        (List.range T).map (fun (i : Nat) =>
          render_crossfade_frame cfg measure initialSeq newSymbol substitutePos colorMap
            (((i : ℚ) + 1) / (T : ℚ))) ++
        List.replicate H (render_sequence cfg measure finalSeq colorMap)) := by
  unfold create_animation_framesE
  rw [mapM_ok_of_forall (List.range T) _ (fun (i : Nat) =>
    render_crossfade_frame cfg measure initialSeq newSymbol substitutePos colorMap
      (((i : ℚ) + 1) / (T : ℚ)))]
  · rfl
  · intro i hi
    have hT : T ≠ 0 := by
      intro h0
      rw [h0] at hi
      simp at hi
    have hTq : (T : ℚ) ≠ 0 := Nat.cast_ne_zero.mpr hT
    simp only [divE, if_neg hTq]
    rfl

theorem animation_list_length (cfg : RenderConfig) (measure : String → Nat × Nat)
    (initialSeq finalSeq : List String) (newSymbol : String) (substitutePos : Nat)
    (colorMap : List (String × RGB)) (H T : Nat) :
    (List.replicate H (render_sequence cfg measure initialSeq colorMap) ++
      (List.range T).map (fun (i : Nat) =>
        render_crossfade_frame cfg measure initialSeq newSymbol substitutePos colorMap
          (((i : ℚ) + 1) / (T : ℚ))) ++
      List.replicate H (render_sequence cfg measure finalSeq colorMap)).length = 2 * H + T := by
  simp [List.length_append, List.length_replicate, List.length_map, List.length_range]
  omega

/-- Indexing into the spliced final sequence
take p ++ [n] ++ drop (p+1): the element at the substitution position is
the new symbol, every other position is unchanged. -/
theorem final_sequence_getElem? (s : List String) (n : String) (p i : Nat)
    (hp : p < s.length) :
    (s.take p ++ [n] ++ s.drop (p + 1))[i]? = if i = p then some n else s[i]? := by
  have hlenTake : (s.take p).length = p := List.length_take_of_le (Nat.le_of_lt hp)
  have hassoc : s.take p ++ [n] ++ s.drop (p + 1) = (s.take p ++ [n]) ++ s.drop (p + 1) := by
    rw [List.append_assoc]
  have hlenLeft : (s.take p ++ [n]).length = p + 1 := by
    rw [List.length_append, hlenTake]
    rfl
  rw [hassoc]
  rcases Nat.lt_trichotomy i p with hlt | heq | hgt
  · rw [List.getElem?_append_left (by omega), List.getElem?_append_left (by omega),
      List.getElem?_take_of_lt hlt, if_neg (by omega)]
  · subst heq
    rw [List.getElem?_append_left (by omega), List.getElem?_append_right (by omega), hlenTake]
    simp
  · rw [List.getElem?_append_right (by omega), hlenLeft, List.getElem?_drop, if_neg (by omega)]
    congr 1
    omega

/-! ## Inversion of generate_task_pair -/

theorem exceptBind_ok {α β : Type} {e : Except String α} {f : α → Except String β} {b : β}
    (h : e >>= f = .ok b) : ∃ a, e = .ok a ∧ f a = .ok b := by
  cases e with
  | error s => simp [Bind.bind, Except.bind] at h
  | ok a =>
    refine ⟨a, rfl, ?_⟩
    simpa [Bind.bind, Except.bind] using h

/-- Everything a successful generate_task_pair run guarantees about the
returned record, extracted from the monadic sampling chain. -/
theorem generate_task_pair_ok {symbols : List String} {minLen maxLen : Int}
    {gv va : Bool} {ord : List String → List String} {g : Rng} {r : TaskPairR}
    (h : generate_task_pair symbols minLen maxLen gv va ord g = .ok r) :
    ∃ seqLength pos : Int,
      minLen ≤ seqLength ∧ seqLength ≤ maxLen ∧
      r.sequence.length = seqLength.toNat ∧
      (∀ x ∈ r.sequence, x ∈ symbols) ∧
      0 ≤ pos ∧ pos.toNat < r.sequence.length ∧
      r.substitutePosition = pos.toNat ∧
      r.oldSymbol = r.sequence.getD pos.toNat "" ∧
      r.newSymbol ∈ symbols.filter (fun s => !(r.sequence.contains s)) ∧
      r.finalSequence =
        r.sequence.take pos.toNat ++ [r.newSymbol] ++ r.sequence.drop (pos.toNat + 1) ∧
      r.colorMap = create_color_map (ord (r.sequence ++ [r.newSymbol])) ∧
      r.groundTruthVideo = (if gv && (gv && va) then some "ground_truth.mp4" else none) := by
  unfold generate_task_pair at h
  obtain ⟨x1, h1, h⟩ := exceptBind_ok h
  obtain ⟨seqLength, g1⟩ := x1
  try dsimp only at h
  obtain ⟨x2, h2, h⟩ := exceptBind_ok h
  obtain ⟨sequence, g2⟩ := x2
  try dsimp only at h
  obtain ⟨x3, h3, h⟩ := exceptBind_ok h
  obtain ⟨pos, g3⟩ := x3
  try dsimp only at h
  obtain ⟨oldSym, h4, h⟩ := exceptBind_ok h
  try dsimp only at h
  obtain ⟨x5, h5, h⟩ := exceptBind_ok h
  obtain ⟨newSym, g4⟩ := x5
  try dsimp only at h
  obtain ⟨x6, h6, h⟩ := exceptBind_ok h
  obtain ⟨template, g5⟩ := x6
  try dsimp only at h
  have hr : r = { sequence := sequence, substitutePosition := pos.toNat,
                  oldSymbol := oldSym, newSymbol := newSym,
                  finalSequence := sequence.take pos.toNat ++ [newSym] ++
                    sequence.drop (pos.toNat + 1),
                  colorMap := create_color_map (ord (sequence ++ [newSym])),
                  prompt := formatPrompt template oldSym newSym (pos.toNat + 1),
                  groundTruthVideo :=
                    if gv && (gv && va) then some "ground_truth.mp4" else none } := by
    have := h
    simp only [Pure.pure, Except.pure, Except.ok.injEq] at this
    exact this.symm
  subst hr
  obtain ⟨hL1, hL2⟩ := randintE_ok_bounds h1
  obtain ⟨hslen, hssub⟩ := sampleE_ok h2
  obtain ⟨hp1, hp2⟩ := randintE_ok_bounds h3
  obtain ⟨-, hplen, hold⟩ := indexE_ok h4
  have hnew := choiceE_ok_mem h5
  exact ⟨seqLength, pos, hL1, hL2, hslen, hssub, hp1, hplen, rfl, hold, hnew, rfl, rfl, rfl⟩

/-! ## Claim C1 -/

/-- C1: for every generated task instance, the before and after sequences
have equal length, differ at exactly one index, that index equals the
chosen substitution position, the new symbol does not occur in the
before sequence, and the old symbol equals the before sequence element
at the substitution position. -/
theorem generated_pair_invariants {symbols : List String} {minLen maxLen : Int}
    {gv va : Bool} {ord : List String → List String} {g : Rng} {r : TaskPairR}
    (h : generate_task_pair symbols minLen maxLen gv va ord g = .ok r) :
    r.finalSequence.length = r.sequence.length ∧
    r.substitutePosition < r.sequence.length ∧
    (∀ i, i < r.sequence.length →
      (r.finalSequence[i]? ≠ r.sequence[i]? ↔ i = r.substitutePosition)) ∧
    r.newSymbol ∉ r.sequence ∧
    r.sequence[r.substitutePosition]? = some r.oldSymbol := by
  obtain ⟨L, pos, -, -, -, -, -, hplen, hsp, hold, hnewmem, hfinal, -, -⟩ :=
    generate_task_pair_ok h
  have hnotin : r.newSymbol ∉ r.sequence := by
    have hb := (List.mem_filter.mp hnewmem).2
    simpa using hb
  have holdelem : r.sequence[pos.toNat]? = some r.oldSymbol := by
    rw [hold, List.getD_eq_getElem _ _ hplen]
    exact List.getElem?_eq_getElem hplen
  have holdmem : r.oldSymbol ∈ r.sequence := by
    rw [hold, List.getD_eq_getElem _ _ hplen]
    exact List.getElem_mem hplen
  have hne : r.newSymbol ≠ r.oldSymbol := fun he => hnotin (he ▸ holdmem)
  rw [hsp]
  refine ⟨?_, hplen, ?_, hnotin, holdelem⟩
  · rw [hfinal]
    simp only [List.length_append, List.length_take, List.length_drop,
      List.length_singleton]
    omega
  · intro i hi
    rw [hfinal, final_sequence_getElem? _ _ _ _ hplen]
    by_cases hip : i = pos.toNat
    · subst hip
      rw [if_pos rfl, holdelem]
      simp [hne]
    · rw [if_neg hip]
      simp [hip]

/-- Witness for C1: the invariants hold for the concrete run demoPair. -/
theorem generated_pair_invariants_witness :
    demoPair.finalSequence.length = demoPair.sequence.length ∧
    demoPair.substitutePosition < demoPair.sequence.length ∧
    (∀ i, i < demoPair.sequence.length →
      (demoPair.finalSequence[i]? ≠ demoPair.sequence[i]? ↔
        i = demoPair.substitutePosition)) ∧
    demoPair.newSymbol ∉ demoPair.sequence ∧
    demoPair.sequence[demoPair.substitutePosition]? = some demoPair.oldSymbol :=
  @generated_pair_invariants shapesSymbols 5 9 false false ordA rng0 demoPair (by rfl)

/-! ## Shared construction: a valid configuration always samples successfully -/

theorem exceptBind_ok_eq {α β : Type} (a : α) (f : α → Except String β) :
    ((Except.ok a : Except String α) >>= f) = f a := rfl

theorem exceptBind_error_eq {α β : Type} (e : String) (f : α → Except String β) :
    ((Except.error e : Except String α) >>= f) = .error e := rfl

theorem generate_ok_of_valid {symbols : List String} {minLen maxLen : Int}
    (hnd : symbols.Nodup) (h1 : 1 ≤ minLen) (h2 : minLen ≤ maxLen)
    (h3 : maxLen + 1 ≤ (symbols.length : Int))
    (gv va : Bool) (ord : List String → List String) (g : Rng) :
    ∃ r, generate_task_pair symbols minLen maxLen gv va ord g = .ok r := by
  obtain ⟨L, g1, hL⟩ := randintE_ok_of_le minLen maxLen g h2
  obtain ⟨hL1, hL2⟩ := randintE_ok_bounds hL
  obtain ⟨seq, g2, hS⟩ := sampleE_ok_of_le symbols L g1 (by omega) (by omega)
  obtain ⟨hslen, hssub⟩ := sampleE_ok hS
  have hseqlen : 1 ≤ seq.length := by omega
  obtain ⟨pos, g3, hP⟩ := randintE_ok_of_le 0 ((seq.length : Int) - 1) g2 (by omega)
  obtain ⟨hp1, hp2⟩ := randintE_ok_bounds hP
  have hIdx : indexE seq pos = .ok (seq.getD pos.toNat "") := by
    unfold indexE
    rw [if_pos ⟨hp1, by omega⟩]
  have havail : symbols.filter (fun s => !(seq.contains s)) ≠ [] := by
    intro hempty
    have hsub : symbols ⊆ seq := by
      intro x hx
      by_contra hxn
      have hxmem : x ∈ symbols.filter (fun s => !(seq.contains s)) := by
        rw [List.mem_filter]
        exact ⟨hx, by simpa using hxn⟩
      rw [hempty] at hxmem
      simp at hxmem
    have hle := (hnd.subperm hsub).length_le
    omega
  obtain ⟨newSym, g4, hC⟩ := choiceE_ok_of_ne_nil (symbols.filter (fun s => !(seq.contains s))) g3 havail
  obtain ⟨tmpl, g5, hT⟩ := choiceE_ok_of_ne_nil PROMPT_TEMPLATES g4 (by simp [PROMPT_TEMPLATES])
  refine ⟨{ sequence := seq, substitutePosition := pos.toNat,
            oldSymbol := seq.getD pos.toNat "", newSymbol := newSym,
            finalSequence := seq.take pos.toNat ++ [newSym] ++ seq.drop (pos.toNat + 1),
            colorMap := create_color_map (ord (seq ++ [newSym])),
            prompt := formatPrompt tmpl (seq.getD pos.toNat "") newSym (pos.toNat + 1),
            groundTruthVideo :=
              if gv && (gv && va) then some "ground_truth.mp4" else none }, ?_⟩
  unfold generate_task_pair
  rw [hL, exceptBind_ok_eq]
  try dsimp only
  rw [hS, exceptBind_ok_eq]
  try dsimp only
  rw [hP, exceptBind_ok_eq]
  try dsimp only
  rw [hIdx, exceptBind_ok_eq]
  try dsimp only
  rw [hC, exceptBind_ok_eq]
  try dsimp only
  rw [hT, exceptBind_ok_eq]
  rfl

/-! ## Claim C4 -/

/-- C4: for every hold-frame count H and every transition-frame count
T ≥ 1, the animation frame list is exactly H copies of the before-scene,
then the T cross-fade frames at progress (i+1)/T, then H copies of the
after-scene, for a total of 2H + T frames. -/
theorem animation_sequence_structure (cfg : RenderConfig) (measure : String → Nat × Nat)
    (initialSeq finalSeq : List String) (newSymbol : String) (substitutePos : Nat)
    (colorMap : List (String × RGB)) (H T : Nat) (_hT : 1 ≤ T) :
    create_animation_framesE cfg measure initialSeq finalSeq newSymbol substitutePos
        colorMap H T =
      .ok (List.replicate H (render_sequence cfg measure initialSeq colorMap) ++
        (List.range T).map (fun (i : Nat) =>
          render_crossfade_frame cfg measure initialSeq newSymbol substitutePos colorMap
            (((i : ℚ) + 1) / (T : ℚ))) ++
        List.replicate H (render_sequence cfg measure finalSeq colorMap)) ∧
    (List.replicate H (render_sequence cfg measure initialSeq colorMap) ++
      (List.range T).map (fun (i : Nat) =>
        render_crossfade_frame cfg measure initialSeq newSymbol substitutePos colorMap
          (((i : ℚ) + 1) / (T : ℚ))) ++
      List.replicate H (render_sequence cfg measure finalSeq colorMap)).length = 2 * H + T :=
  ⟨create_animation_framesE_eq cfg measure initialSeq finalSeq newSymbol substitutePos
      colorMap H T,
   animation_list_length cfg measure initialSeq finalSeq newSymbol substitutePos
      colorMap H T⟩

/-- Witness for C4 at H = 1, T = 1 on a concrete scene. -/
theorem animation_sequence_structure_witness :
    create_animation_framesE cfgW msrW ["●", "▲"] ["■", "▲"] "■" 0 cmW 1 1 =
      .ok (List.replicate 1 (render_sequence cfgW msrW ["●", "▲"] cmW) ++
        (List.range 1).map (fun (i : Nat) =>
          render_crossfade_frame cfgW msrW ["●", "▲"] "■" 0 cmW
            (((i : ℚ) + 1) / ((1 : Nat) : ℚ))) ++
        List.replicate 1 (render_sequence cfgW msrW ["■", "▲"] cmW)) ∧
    (List.replicate 1 (render_sequence cfgW msrW ["●", "▲"] cmW) ++
      (List.range 1).map (fun (i : Nat) =>
        render_crossfade_frame cfgW msrW ["●", "▲"] "■" 0 cmW
          (((i : ℚ) + 1) / ((1 : Nat) : ℚ))) ++
      List.replicate 1 (render_sequence cfgW msrW ["■", "▲"] cmW)).length = 2 * 1 + 1 :=
  animation_sequence_structure cfgW msrW ["●", "▲"] ["■", "▲"] "■" 0 cmW 1 1 (by decide)

/-! ## Claim C7 -/

/-- C7 counterexample: with transition-frame count T = 0 < 1 the animator
does not fail at all: the cross-fade loop body (and therefore the
division) never executes, and the result is the 2H hold frames. -/
theorem animator_zero_transition_ok :
    (0 : Nat) < 1 ∧
    (create_animation_framesE cfgW msrW ["●", "▲"] ["■", "▲"] "■" 0 cmW 5 0).map
      List.length = .ok 10 := by
  exact ⟨by decide, by rfl⟩

/-- C7 amended: the transition animator never fails by division by zero:
for T ≥ 1 every progress divisor is nonzero, and for T < 1 the loop body
never runs, so the frame list is produced with 2H + T frames. -/
theorem animator_never_fails (cfg : RenderConfig) (measure : String → Nat × Nat)
    (initialSeq finalSeq : List String) (newSymbol : String) (substitutePos : Nat)
    (colorMap : List (String × RGB)) (H T : Nat) :
    ∃ frames, create_animation_framesE cfg measure initialSeq finalSeq newSymbol
        substitutePos colorMap H T = .ok frames ∧ frames.length = 2 * H + T :=
  ⟨_, create_animation_framesE_eq cfg measure initialSeq finalSeq newSymbol substitutePos
        colorMap H T,
     animation_list_length cfg measure initialSeq finalSeq newSymbol substitutePos
        colorMap H T⟩

/-! ## Claim C10 -/

/-- C10: the video-generation path always calls the animator with the
default hold-frame count 5 and transition-frame count 10, independently
of any configuration value, so every generated animation has exactly
2*5 + 10 = 20 frames. -/
theorem video_frames_always_twenty (cfg : RenderConfig) (measure : String → Nat × Nat)
    (initialSeq finalSeq : List String) (newSymbol : String) (substitutePos : Nat)
    (colorMap : List (String × RGB)) :
    (generate_video_frames cfg measure initialSeq finalSeq newSymbol substitutePos
        colorMap).map List.length = .ok 20 := by
  unfold generate_video_frames
  rw [create_animation_framesE_eq]
  rw [Except.map, animation_list_length]

/-! ## Claim C5 -/

/-- C5 counterexample: min_sequence_length = 9 and max_sequence_length = 5
is an inverted (min > max) length range, yet it satisfies every eager
pydantic field bound of TaskConfig, so no configuration error is raised
before sampling; the run instead dies inside generate_task_pair with the
generic empty-range error of the very first sampling draw. -/
theorem inverted_range_passes_validation :
    TaskConfigValid 9 5 ∧ (5 : Int) < 9 ∧
    generate_task_pair shapesSymbols 9 5 false false ordA rng0 =
      .error "empty range for randrange" :=
  ⟨by decide, by decide, by rfl⟩

/-- C5 amended: configuration errors are not detected eagerly: the eager
validation checks only per-field bounds, and an inverted length range
(min > max) passes it; the failure is fatal but surfaces lazily, as the
generic empty-range error of the length draw inside generate_task_pair,
for every random stream and set order. -/
theorem inverted_range_fails_at_sampling (symbols : List String) {minLen maxLen : Int}
    (hlt : maxLen < minLen) (gv va : Bool) (ord : List String → List String) (g : Rng) :
    generate_task_pair symbols minLen maxLen gv va ord g =
      .error "empty range for randrange" := by
  unfold generate_task_pair
  rw [show randintE minLen maxLen g = .error "empty range for randrange" by
    unfold randintE
    rw [if_pos hlt]]
  rw [exceptBind_error_eq]

/-- Witness for C5 amended at the concrete inverted range 9..5. -/
theorem inverted_range_fails_at_sampling_witness :
    generate_task_pair lettersSymbols 9 5 true true ordB rng0 =
      .error "empty range for randrange" :=
  inverted_range_fails_at_sampling lettersSymbols (by decide) true true ordB rng0

/-! ## Claim C6 -/

/-- C6: for every duplicate-free catalog of size N and every length range
with 1 ≤ min_len ≤ max_len and N ≥ max_len + 1, sampling a sequence pair
never fails: every draw (length, before sequence, position, replacement
symbol) succeeds.  (The lower bound min_len ≥ 1 is guaranteed in the
program by the TaskConfig field bound min_sequence_length ≥ 4.) -/
theorem sampling_never_fails {symbols : List String} {minLen maxLen : Int}
    (hnd : symbols.Nodup) (h1 : 1 ≤ minLen) (h2 : minLen ≤ maxLen)
    (h3 : maxLen + 1 ≤ (symbols.length : Int))
    (gv va : Bool) (ord : List String → List String) (g : Rng) :
    ∃ r, generate_task_pair symbols minLen maxLen gv va ord g = .ok r :=
  generate_ok_of_valid hnd h1 h2 h3 gv va ord g

/-- Witness for C6: shapes catalog (N = 15), range 5..9, 15 ≥ 9 + 1. -/
theorem sampling_never_fails_witness :
    ∃ r, generate_task_pair shapesSymbols 5 9 true false ordA rng0 = .ok r :=
  sampling_never_fails (by decide) (by decide) (by decide) (by decide) true false ordA rng0

/-! ## Claim C8 -/

/-- C8: when the video-encoding capability is unavailable
(VideoGenerator.is_available() = false), generation still succeeds (no
exception) and returns a complete task pair whose video reference is
none, for every random stream and whether or not videos were requested. -/
theorem video_unavailable_graceful {symbols : List String} {minLen maxLen : Int}
    (hnd : symbols.Nodup) (h1 : 1 ≤ minLen) (h2 : minLen ≤ maxLen)
    (h3 : maxLen + 1 ≤ (symbols.length : Int))
    (gv : Bool) (ord : List String → List String) (g : Rng) :
    ∃ r, generate_task_pair symbols minLen maxLen gv false ord g = .ok r ∧
      r.groundTruthVideo = none := by
  obtain ⟨r, hr⟩ := generate_ok_of_valid hnd h1 h2 h3 gv false ord g
  refine ⟨r, hr, ?_⟩
  obtain ⟨-, -, -, -, -, -, -, -, -, -, -, -, -, hvid⟩ := generate_task_pair_ok hr
  rw [hvid]
  simp

/-- Witness for C8: videos requested but capability absent. -/
theorem video_unavailable_graceful_witness :
    ∃ r, generate_task_pair shapesSymbols 5 9 true false ordA rng0 = .ok r ∧
      r.groundTruthVideo = none :=
  video_unavailable_graceful (by decide) (by decide) (by decide) (by decide) true ordA rng0

/-! ## Claim C9 -/

/-- C9: a symbol-set name outside the recognized categories does not make
the generator fail: the catalog silently falls back to the shapes set,
and generation from that fallback succeeds (default length range 5..9)
for every random stream and set order. -/
theorem unknown_symbol_set_falls_back (name : String)
    (h : name ∉ ["shapes", "letters", "numbers", "mixed"]) :
    symbol_sets_get name = shapesSymbols ∧
    ∀ (ord : List String → List String) (g : Rng),
      ∃ r, generate_task_pair (symbol_sets_get name) 5 9 true true ord g = .ok r := by
  simp only [List.mem_cons, List.not_mem_nil, or_false, not_or] at h
  obtain ⟨h1, h2, h3, h4⟩ := h
  have e1 : (("shapes" : String) == name) = false :=
    beq_eq_false_iff_ne.mpr (fun he => h1 he.symm)
  have e2 : (("letters" : String) == name) = false :=
    beq_eq_false_iff_ne.mpr (fun he => h2 he.symm)
  have e3 : (("numbers" : String) == name) = false :=
    beq_eq_false_iff_ne.mpr (fun he => h3 he.symm)
  have e4 : (("mixed" : String) == name) = false :=
    beq_eq_false_iff_ne.mpr (fun he => h4 he.symm)
  have hget : symbol_sets_get name = shapesSymbols := by
    unfold symbol_sets_get SYMBOL_SETS
    simp [List.find?, e1, e2, e3, e4]
  refine ⟨hget, fun ord g => ?_⟩
  rw [hget]
  exact generate_ok_of_valid (by decide) (by decide) (by decide) (by decide) true true ord g

/-- Witness for C9 at the unrecognized name "hexagons". -/
theorem unknown_symbol_set_falls_back_witness :
    symbol_sets_get "hexagons" = shapesSymbols ∧
    ∀ (ord : List String → List String) (g : Rng),
      ∃ r, generate_task_pair (symbol_sets_get "hexagons") 5 9 true true ord g = .ok r :=
  unknown_symbol_set_falls_back "hexagons" (by decide)

/-! ## Claim C3 -/

/-- C3 counterexample: for the same seed (random stream) and
configuration, two set-enumeration orders that enumerate exactly the
same distinct symbols (as two independent Python processes may, under
different string-hash seeds) produce different symbol-to-color mappings,
a different rendered before-image, and different full run results. -/
theorem independent_runs_can_differ :
    (ordB ["●", "▲", "■"]).Perm (ordA ["●", "▲", "■"]) ∧
    dictGet (create_color_map (ordA ["●", "▲", "■"])) "●" ≠
      dictGet (create_color_map (ordB ["●", "▲", "■"])) "●" ∧
    render_sequence cfgW msrW ["●", "▲", "■"] (create_color_map (ordA ["●", "▲", "■"])) ≠
      render_sequence cfgW msrW ["●", "▲", "■"] (create_color_map (ordB ["●", "▲", "■"])) ∧
    (generate_task_pair shapesSymbols 5 9 false false ordA rng0).toOption ≠
      (generate_task_pair shapesSymbols 5 9 false false ordB rng0).toOption := by
  exact ⟨by decide, by decide, by decide, by decide⟩

/-- C3 amended: with the seed and configuration fixed, two independent
runs agree on every artifact that does not involve the color assignment
(sequences, substitution position, old and new symbol, final sequence,
prompt text, video reference); the color map (and hence the rendered
images) additionally agrees whenever both runs enumerate the instance
symbol set in the same order, but that order is the Python set-iteration
order, which is not fixed by the seed across processes. -/
theorem run_agreement_up_to_color (symbols : List String) (minLen maxLen : Int)
    (gv va : Bool) (ord1 ord2 : List String → List String) (g : Rng) :
    (generate_task_pair symbols minLen maxLen gv va ord1 g).map nonColorPart =
      (generate_task_pair symbols minLen maxLen gv va ord2 g).map nonColorPart := by
  unfold generate_task_pair
  cases hL : randintE minLen maxLen g with
  | error e => rfl
  | ok x =>
    obtain ⟨L, g1⟩ := x
    rw [exceptBind_ok_eq, exceptBind_ok_eq]
    try dsimp only
    cases hS : sampleE symbols L g1 with
    | error e => rfl
    | ok y =>
      obtain ⟨seq, g2⟩ := y
      rw [exceptBind_ok_eq, exceptBind_ok_eq]
      try dsimp only
      cases hP : randintE 0 ((seq.length : Int) - 1) g2 with
      | error e => rfl
      | ok z =>
        obtain ⟨pos, g3⟩ := z
        rw [exceptBind_ok_eq, exceptBind_ok_eq]
        try dsimp only
        cases hO : indexE seq pos with
        | error e => rfl
        | ok oldSym =>
          rw [exceptBind_ok_eq, exceptBind_ok_eq]
          try dsimp only
          cases hC : choiceE (symbols.filter (fun s => !(seq.contains s))) g3 with
          | error e => rfl
          | ok w =>
            obtain ⟨newSym, g4⟩ := w
            rw [exceptBind_ok_eq, exceptBind_ok_eq]
            try dsimp only
            cases hT : choiceE PROMPT_TEMPLATES g4 with
            | error e => rfl
            | ok t => rfl

/-! ## Claim C2 -/

/-- C2 (refuted; defect in _render_crossfade_frame): the claim says every
symbol at an index other than the substitution position appears in every
cross-fade frame exactly as in the static renderer.  In the code, the
ImageDraw handle created at line 220 stays bound to the original image
object, while img is rebound at lines 267-269 to the composited copy at
the substitution index; the loop comment says "Draw all symbols", yet
every draw after the substitution index mutates the discarded original
object.  Concretely: for the before sequence [●, ▲] with substitution
position 0 and progress 1/2, the static render contains a glyph for ▲,
but the returned cross-fade frame contains no glyph for ▲ at all. -/
theorem crossfade_frame_loses_trailing_symbols :
    (∃ gl ∈ render_sequence cfgW msrW ["●", "▲"] cmW, gl.symbol = "▲") ∧
    (∀ gl ∈ render_crossfade_frame cfgW msrW ["●", "▲"] "■" 0 cmW (1 / 2 : ℚ),
      gl.symbol ≠ "▲") := by
  exact ⟨by decide, by decide⟩
